import Mathlib

/-!
Verification of the conversation-orchestration core of the HR voice-assistant
(`src/app.py`).  Text is modelled as `List Char`; Python string operations
(`in`, `lower()`, `strip()`, slicing) and the two `re.search` patterns used by
the scheduler are embedded directly.  Database tables are modelled as Lean
lists, and the storage port is assumed to succeed (the `mysql.connector.Error`
branches of the source, which roll back and apologise, are outside the model).
-/

abbrev Str := List Char

/-- Python `needle in haystack` (substring containment). -/
def containsSub (hay needle : Str) : Bool :=
  match hay with
  | [] => needle.isEmpty
  | _ :: t => needle.isPrefixOf hay || containsSub t needle

/-- ASCII lower-casing of one character, as Python `str.lower()` does on ASCII text. -/
def pyLowerChar (c : Char) : Char :=
  if 65 ≤ c.toNat ∧ c.toNat ≤ 90 then Char.ofNat (c.toNat + 32) else c

/-- ASCII upper-casing of one character, as Python `str.upper()` does on ASCII text. -/
def pyUpperChar (c : Char) : Char :=
  if 97 ≤ c.toNat ∧ c.toNat ≤ 122 then Char.ofNat (c.toNat - 32) else c

/-- Python `\s` / `str.strip()` whitespace (ASCII). -/
def pyIsSpace (c : Char) : Bool :=
  c == ' ' || c == '\t' || c == '\n' || c == '\r' || c == '\x0b' || c == '\x0c'

/-- Python `str.strip()`. -/
def pyStrip (cs : Str) : Str :=
  ((cs.dropWhile pyIsSpace).reverse.dropWhile pyIsSpace).reverse

/-- Python `str.lower()`. -/
def pyLower (cs : Str) : Str := cs.map pyLowerChar

/-- Numeric value of an ASCII digit. -/
def digitVal (c : Char) : Nat := c.toNat - 48

/-- `int()` on the all-digit strings produced by the date pattern
(`none` models the `ValueError` branch of the source). -/
def parseDigitsNat (cs : Str) : Option Nat :=
  if cs ≠ [] ∧ cs.all Char.isDigit then
    some (cs.foldl (fun acc c => acc * 10 + digitVal c) 0)
  else none

/-! ### The scheduler's regular expressions

`save_session` uses
`(?:scheduled|booked|set|rescheduled)\s*(?:for|on|at)?\s*(\d{4}-\d{2}-\d{2})\s*(?:at)?\s*(\d{2}:\d{2}(?:\s*(?:AM|PM))?)`
and `reschedule_session` uses the same shape with verb `(?:re)?scheduled` and
prepositions `for|to|on|at`, both under `re.IGNORECASE` and `re.search`
semantics (leftmost match, alternatives in written order, greedy repetition
with backtracking).  The alternation branches of each group start with
pairwise-distinct letters, and whitespace can never satisfy a following
letter or digit, so each group's match is forced; the only live backtracking
point is an optional preposition whose consumption is retracted when the rest
of the pattern fails, which `gapThen` reproduces by retrying its continuation. -/

/-- Consume `lit` (already lower-case) case-insensitively at the front of `cs`. -/
def stripLitCI (lit : Str) (cs : Str) : Option Str :=
  if (cs.take lit.length).map pyLowerChar == lit then some (cs.drop lit.length) else none

/-- First alternative of `lits` that matches at the front of `cs` (regex alternation order). -/
def firstLitCI (lits : List Str) (cs : Str) : Option Str :=
  match lits with
  | [] => none
  | l :: ls =>
    match stripLitCI l cs with
    | some r => some r
    | none => firstLitCI ls cs

/-- Greedy `\s*`. -/
def skipWs (cs : Str) : Str := cs.dropWhile pyIsSpace

/-- `\s*(?:lit₁|…|litₙ)?\s*` followed by the continuation `k`, with the
backtracking the regex engine performs when the optional literal was consumed
but the continuation then fails. -/
def gapThen {α : Type} (lits : List Str) (k : Str → Option α) (cs : Str) : Option α :=
  let cs1 := skipWs cs
  match firstLitCI lits cs1 with
  | some cs2 =>
    match k (skipWs cs2) with
    | some r => some r
    | none => k cs1
  | none => k cs1

/-- `(\d{4}-\d{2}-\d{2})`: returns the captured date and the rest. -/
def matchDate (cs : Str) : Option (Str × Str) :=
  match cs with
  | a :: b :: c :: d :: '-' :: e :: f :: '-' :: g :: h :: r =>
    if ([a, b, c, d, e, f, g, h].all Char.isDigit) then
      some ([a, b, c, d, '-', e, f, '-', g, h], r)
    else none
  | _ => none

/-- The optional `(?:\s*(?:AM|PM))?` tail of the time group (case-insensitive). -/
def matchAmPmTail (cs : Str) : Option (Str × Str) :=
  let ws := cs.takeWhile pyIsSpace
  match cs.dropWhile pyIsSpace with
  | a :: m :: r2 =>
    if (pyLowerChar a == 'a' || pyLowerChar a == 'p') && pyLowerChar m == 'm' then
      some (ws ++ [a, m], r2)
    else none
  | _ => none

/-- `(\d{2}:\d{2}(?:\s*(?:AM|PM))?)`: returns the captured time and the rest. -/
def matchTime (cs : Str) : Option (Str × Str) :=
  match cs with
  | a :: b :: ':' :: c :: d :: r =>
    if ([a, b, c, d].all Char.isDigit) then
      match matchAmPmTail r with
      | some (tail, r2) => some ([a, b, ':', c, d] ++ tail, r2)
      | none => some ([a, b, ':', c, d], r)
    else none
  | _ => none

/-- The four booking verbs, in the pattern's alternation order. -/
def sessionVerbs : List Str :=
  ["scheduled".toList, "booked".toList, "set".toList, "rescheduled".toList]

/-- Attempt the whole `save_session` pattern at the current position,
returning the two captured groups (date, time). -/
def matchSessionAt (cs : Str) : Option (Str × Str) :=
  match firstLitCI sessionVerbs cs with
  | none => none
  | some cs1 =>
    gapThen ["for".toList, "on".toList, "at".toList]
      (fun cs2 =>
        match matchDate cs2 with
        | none => none
        | some (d, cs3) =>
          gapThen ["at".toList]
            (fun cs4 => (matchTime cs4).map (fun p => (d, p.1))) cs3) cs1

/-- `re.search`: try the matcher at every position, leftmost first. -/
def scanFor {α : Type} (m : Str → Option α) : Str → Option α
  | [] => m []
  | c :: t =>
    match m (c :: t) with
    | some r => some r
    | none => scanFor m t

/-- `re.search(session_pattern, response, re.IGNORECASE)` of `save_session`. -/
def searchSession (cs : Str) : Option (Str × Str) := scanFor matchSessionAt cs

/-- The verb `(?:re)?scheduled` of `reschedule_session` (greedy optional `re`). -/
def matchReschedVerb (cs : Str) : Option Str :=
  match stripLitCI "re".toList cs with
  | some r =>
    match stripLitCI "scheduled".toList r with
    | some r2 => some r2
    | none => stripLitCI "scheduled".toList cs
  | none => stripLitCI "scheduled".toList cs

/-- Attempt the whole `reschedule_session` pattern at the current position. -/
def matchReschedAt (cs : Str) : Option (Str × Str) :=
  match matchReschedVerb cs with
  | none => none
  | some cs1 =>
    gapThen ["for".toList, "to".toList, "on".toList, "at".toList]
      (fun cs2 =>
        match matchDate cs2 with
        | none => none
        | some (d, cs3) =>
          gapThen ["at".toList]
            (fun cs4 => (matchTime cs4).map (fun p => (d, p.1))) cs3) cs1

/-- `re.search(session_pattern, response, re.IGNORECASE)` of `reschedule_session`. -/
def searchResched (cs : Str) : Option (Str × Str) := scanFor matchReschedAt cs

/-! ### Date-and-time normalization (`save_session` / `reschedule_session`, after the match) -/

/-- `int(session_date.split('-')[0])`, then rewrite to `f"2025{session_date[4:]}"`
when the year is below 2025; `none` is the `ValueError` branch. -/
def fixYear (d : Str) : Option Str :=
  match parseDigitsNat (d.takeWhile (fun c => c ≠ '-')) with
  | none => none
  | some y => if y < 2025 then some ("2025".toList ++ d.drop 4) else some d

/-- `"AM" in session_time.upper() or "PM" in session_time.upper()`. -/
def hasAmPm (t : Str) : Bool :=
  containsSub (t.map pyUpperChar) "AM".toList || containsSub (t.map pyUpperChar) "PM".toList

/-- `AM|PM` (case-insensitive) consuming the whole rest; `true` means PM. -/
def parseAmPmEnd (cs : Str) : Option Bool :=
  match cs with
  | [a, m] =>
    if pyLowerChar m == 'm' then
      if pyLowerChar a == 'a' then some false
      else if pyLowerChar a == 'p' then some true
      else none
    else none
  | _ => none

/-- `\s+` then `AM|PM` at the end of the string (the `%p` part of the format,
preceded by the format's mandatory whitespace). -/
def parseSpAmPm (cs : Str) : Option Bool :=
  match cs with
  | c :: r => if pyIsSpace c then parseAmPmEnd (skipWs r) else none
  | [] => none

/-- `([0-5]\d|\d)` then `\s+(AM|PM)`, with the engine's fallback to a
single-digit minute when the two-digit branch leaves no valid continuation. -/
def parseMinAmPm (cs : Str) : Option (Nat × Bool) :=
  match cs with
  | a :: b :: r =>
    if 48 ≤ a.toNat ∧ a.toNat ≤ 53 ∧ b.isDigit then
      match parseSpAmPm r with
      | some pm => some (digitVal a * 10 + digitVal b, pm)
      | none =>
        if a.isDigit then (parseSpAmPm (b :: r)).map (fun pm => (digitVal a, pm)) else none
    else if a.isDigit then (parseSpAmPm (b :: r)).map (fun pm => (digitVal a, pm))
    else none
  | _ => none

/-- `:` then minutes and meridian. -/
def parseColonMin (cs : Str) : Option (Nat × Bool) :=
  match cs with
  | ':' :: r => parseMinAmPm r
  | _ => none

/-- Convert an `%I` hour and a meridian flag to the 24-hour value. -/
def to24Hour (h12 : Nat) (pm : Bool) : Nat :=
  if pm then (if h12 == 12 then 12 else h12 + 12)
  else (if h12 == 12 then 0 else h12)

/-- `datetime.strptime(session_time, "%I:%M %p")`, which compiles to the
anchored pattern `(1[0-2]|0[1-9]|[1-9]):([0-5]\d|\d)\s+(AM|PM)` over the whole
string (case-insensitive); returns the 24-hour `(hour, minute)`.
`none` is the `ValueError` branch. -/
def strptimeIMp (cs : Str) : Option (Nat × Nat) :=
  match cs with
  | [] => none
  | c :: r =>
    if c == '1' then
      match r with
      | d :: r2 =>
        if 48 ≤ d.toNat ∧ d.toNat ≤ 50 then
          match parseColonMin r2 with
          | some (m, pm) => some (to24Hour (10 + digitVal d) pm, m)
          | none => (parseColonMin r).map (fun p => (to24Hour 1 p.2, p.1))
        else (parseColonMin r).map (fun p => (to24Hour 1 p.2, p.1))
      | [] => none
    else if c == '0' then
      match r with
      | d :: r2 =>
        if 49 ≤ d.toNat ∧ d.toNat ≤ 57 then
          (parseColonMin r2).map (fun p => (to24Hour (digitVal d) p.2, p.1))
        else none
      | [] => none
    else if 50 ≤ c.toNat ∧ c.toNat ≤ 57 then
      (parseColonMin r).map (fun p => (to24Hour (digitVal c) p.2, p.1))
    else none

/-- Zero-padded two-digit rendering (`%H` / `%M`), for values below 100. -/
def twoDigits (n : Nat) : Str := [Char.ofNat (48 + n / 10), Char.ofNat (48 + n % 10)]

/-- The `if "AM"/"PM" … strptime … strftime("%H:%M")` block: the matched time
token is converted to 24-hour form when it carries a meridian, and is kept
verbatim otherwise; `none` is the `ValueError` branch (TimeFormatError). -/
def normTime (t : Str) : Option Str :=
  if hasAmPm t then
    match strptimeIMp t with
    | some (h, m) => some (twoDigits h ++ ':' :: twoDigits m)
    | none => none
  else some t

/-! ### Data model (the MySQL tables used by the core) -/

/-- One row of `counseling_sessions`. -/
structure SessionRow where
  id : Nat
  employee_id : Nat
  session_date : Str
  session_time : Str
  mode : Str
  created_at : Nat
deriving DecidableEq, Repr

/-- One row of `courses`. -/
structure Course where
  course_name : Str
  description : Str
  duration : Str
  fees : ℚ
  content : Str
deriving DecidableEq, Repr

/-- `SELECT COUNT(*) FROM counseling_sessions WHERE session_date = d AND session_time = t`. -/
def countSlot (sessions : List SessionRow) (d t : Str) : Nat :=
  (sessions.filter (fun s => s.session_date == d && s.session_time == t)).length

/-- `check_availability`: the slot is free exactly when the count is zero. -/
def check_availability (sessions : List SessionRow) (d t : Str) : Bool :=
  countSlot sessions d t == 0

/-- The booking-slot exclusivity invariant: no two rows share a (date, time) pair. -/
def slotInvariant (sessions : List SessionRow) : Prop :=
  sessions.Pairwise
    (fun a b => ¬(a.session_date = b.session_date ∧ a.session_time = b.session_time))

/-- `fetch_session`: the employee's latest session
(`ORDER BY created_at DESC LIMIT 1`; among equal timestamps the first row). -/
def fetch_session (sessions : List SessionRow) (eid : Nat) : Option SessionRow :=
  (sessions.filter (fun s => s.employee_id == eid)).foldl
    (fun acc s =>
      match acc with
      | none => some s
      | some a => if a.created_at < s.created_at then some s else acc)
    none

/-! ### The scheduler (`save_session` / `reschedule_session`)

Outcomes carry the user-facing message class; the literal re-prompt strings of
the source are recorded by `bookMsg`.  The confirmation text of a successful
booking is assembled by `send_session_message` / `conduct_online_counseling`
from external collaborators (SMS, generative backend) and is therefore kept
abstract.  `newId` models the `AUTO_INCREMENT` key and `now` the row's
`CURRENT_TIMESTAMP`. -/

inductive BookResult where
  | booked (d t : Str)
  | rescheduled (d t : Str)
  | slotTaken
  | invalidDate
  | invalidTime
  | noDateTime
  | noDateTimeResched
deriving DecidableEq, Repr

/-- The literal re-prompt / conflict messages returned by the source
(the two confirmation outcomes have externally assembled wording). -/
def bookMsg : BookResult → Option String
  | .booked _ _ => none
  | .rescheduled _ _ => none
  | .slotTaken =>
    some "That time slot is taken. Please choose another date or time, like May 16, 2025 at 11 AM."
  | .invalidDate => some "Invalid date format. Please say it again, like May 15, 2025 at 11 AM."
  | .invalidTime => some "Invalid time format. Please say it again, like 11:00 AM."
  | .noDateTime =>
    some "I didn't catch the date and time. Could you say it again, like May 15, 2025 at 11 AM?"
  | .noDateTimeResched =>
    some "I didn't catch the new date and time. Could you say it again, like May 15, 2025 at 11 AM?"

/-- `save_session`: extract (date, time) from the response text, normalize
them, and insert a new row when the slot is free. -/
def save_session (sessions : List SessionRow) (newId now eid : Nat) (mode : Str)
    (response : Str) : List SessionRow × BookResult :=
  match searchSession response with
  | none => (sessions, .noDateTime)
  | some (d0, t0) =>
    match fixYear d0 with
    | none => (sessions, .invalidDate)
    | some d =>
      match normTime t0 with
      | none => (sessions, .invalidTime)
      | some t =>
        if check_availability sessions d t then
          (sessions ++ [⟨newId, eid, d, t, mode, now⟩], .booked d t)
        else (sessions, .slotTaken)

/-- `reschedule_session`: extract and normalize like `save_session` (with its
own pattern), then update the employee's latest session in place
(`UPDATE … SET session_date, session_time, mode, created_at WHERE id = … AND
employee_id = …`), or fall back to `save_session` when the employee has none. -/
def reschedule_session (sessions : List SessionRow) (newId now eid : Nat) (mode : Str)
    (response : Str) : List SessionRow × BookResult :=
  match searchResched response with
  | none => (sessions, .noDateTimeResched)
  | some (d0, t0) =>
    match fixYear d0 with
    | none => (sessions, .invalidDate)
    | some d =>
      match normTime t0 with
      | none => (sessions, .invalidTime)
      | some t =>
        if check_availability sessions d t then
          match fetch_session sessions eid with
          | some ex =>
            (sessions.map (fun s =>
              if s.id == ex.id && s.employee_id == eid then
                { s with session_date := d, session_time := t, mode := mode, created_at := now }
              else s),
             .rescheduled d t)
          | none => save_session sessions newId now eid mode response
        else (sessions, .slotTaken)

/-! ### Course resolution (`detect_course`, `fetch_course_details`) -/

/-- The fixed keyword catalog, in iteration order. -/
def course_keywords : List Str :=
  ["python".toList, "java".toList, "data science".toList, "web development".toList]

/-- The keyword → canonical-name dictionary of `detect_course`. -/
def course_map (k : Str) : Option Str :=
  if k == "python".toList then some "Python Programming".toList
  else if k == "java".toList then some "Java Development".toList
  else if k == "data science".toList then some "Data Science".toList
  else if k == "web development".toList then some "Web Development".toList
  else none

/-- `detect_course`: first catalog keyword contained in the transcript wins;
otherwise the previously selected course is carried over. -/
def detect_course (transcript_lower : Str) (prev_course : Option Str) : Option Str :=
  match course_keywords.find? (fun k => containsSub transcript_lower k) with
  | some k => course_map k
  | none => prev_course

/-- MySQL `course_name LIKE '%pat%'` under the default case-insensitive collation. -/
def likeContains (hay pat : Str) : Bool := containsSub (pyLower hay) (pyLower pat)

/-- `fetch_course_details`: first course whose name contains the query (`LIMIT 1`). -/
def fetch_course_details (courses : List Course) (name : Str) : Option Course :=
  courses.find? (fun c => likeContains c.course_name name)

/-! ### Privileged course update (`update_course_details`) -/

/-- `float(value)` on plain decimal literals (optional sign, integer part,
optional fractional part, surrounding whitespace); `none` models the
`ValueError` that `float` raises otherwise and that propagates out of
`update_course_details` (only `mysql.connector.Error` is caught there). -/
def pyFloat (cs0 : Str) : Option ℚ :=
  let cs := ((cs0.dropWhile pyIsSpace).reverse.dropWhile pyIsSpace).reverse
  let neg := cs.take 1 == ['-']
  let cs1 := if neg || cs.take 1 == ['+'] then cs.drop 1 else cs
  let ip := cs1.takeWhile Char.isDigit
  let ipVal : ℚ := (ip.foldl (fun acc c => acc * 10 + digitVal c) 0 : Nat)
  match cs1.dropWhile Char.isDigit with
  | [] => if ip == [] then none else some (if neg then -ipVal else ipVal)
  | '.' :: fr =>
    if fr.all Char.isDigit ∧ (ip ≠ [] ∨ fr ≠ []) then
      let mag : ℚ := ipVal + ((fr.foldl (fun acc c => acc * 10 + digitVal c) 0 : Nat) : ℚ)
        / ((10 : ℚ) ^ fr.length)
      some (if neg then -mag else mag)
    else none
  | _ => none

/-- The value written by a privileged course update (`fees` are numeric,
`description`/`content` textual). -/
inductive CourseUpdVal where
  | num (q : ℚ)
  | text (s : Str)
deriving DecidableEq, Repr

/-- One row of the `hr_commands` audit table, structured by the command that
wrote it; the source stores the corresponding f-string rendering as
`command_text` together with `executed_by`. -/
inductive HRCmd where
  | updatedCourse (field course_name : Str) (value : CourseUpdVal) (executed_by : Str)
  | viewedInteractions (ident : Str) (executed_by : Str)
  | statusReportDone (executed_by : Str)
deriving DecidableEq, Repr

/-- Outcome messages of `update_course_details`. -/
inductive CourseUpdMsg where
  | invalidField
  | priceTooLow
  | updated (field course_name : Str)
  | notFound
deriving DecidableEq, Repr

/-- The literal texts behind `CourseUpdMsg` (the `updated` text interpolates
the field and course name). -/
def courseUpdMsgText : CourseUpdMsg → String
  | .invalidField => "Invalid field. Use price, description, or content."
  | .priceTooLow => "Course price must be above 12,000 INR."
  | .updated _ _ => "Updated {field} for {course_name} successfully."
  | .notFound => "Course not found."

/-- `update_course_details`: validate the field against the allow-list
(`{'price': 'fees', 'description': 'description', 'content': 'content'}`),
enforce the 12000 price floor, then `UPDATE courses … WHERE course_name LIKE
'%name%'`; a successful update (`cursor.rowcount > 0`) appends an `hr_commands`
audit row.  `none` models the uncaught `ValueError` of `float(value)`. -/
def update_course_details (courses : List Course) (audit : List HRCmd)
    (course_name field value executed_by : Str) :
    Option (List Course × List HRCmd × CourseUpdMsg) :=
  let fl := pyLower field
  if fl == "price".toList then
    match pyFloat value with
    | none => none
    | some q =>
      if q ≤ 12000 then some (courses, audit, .priceTooLow)
      else if courses.any (fun c => likeContains c.course_name course_name) then
        some (courses.map (fun c =>
                if likeContains c.course_name course_name then { c with fees := q } else c),
              audit ++ [.updatedCourse field course_name (.num q) executed_by],
              .updated field course_name)
      else some (courses, audit, .notFound)
  else if fl == "description".toList then
    if courses.any (fun c => likeContains c.course_name course_name) then
      some (courses.map (fun c =>
              if likeContains c.course_name course_name then { c with description := value } else c),
            audit ++ [.updatedCourse field course_name (.text value) executed_by],
            .updated field course_name)
    else some (courses, audit, .notFound)
  else if fl == "content".toList then
    if courses.any (fun c => likeContains c.course_name course_name) then
      some (courses.map (fun c =>
              if likeContains c.course_name course_name then { c with content := value } else c),
            audit ++ [.updatedCourse field course_name (.text value) executed_by],
            .updated field course_name)
    else some (courses, audit, .notFound)
  else some (courses, audit, .invalidField)

/-! ### Autoschedule

Modelled from the spec: §4.5 describes `Autoschedule(employee, course)` as the
offline fallback when online counseling fails — a deterministic bounded search
from a fixed anchor date, day by day up to a 30-day horizon, over the ordered
daily slots 10:00, 14:00, 16:00, persisting the first slot the Availability
Checker reports available and yielding NoSlotAvailable when the horizon is
exhausted.  No such search exists in `src/app.py`: `conduct_online_counseling`
(the cited lines) only returns an apology string when the generative backend
fails.  The definitions below therefore follow the spec's words; `dateOf k` is
the calendar date `k` days after the anchor. -/

def autoSlots : List Str := ["10:00".toList, "14:00".toList, "16:00".toList]

/-- Modelled from the spec: the first free slot of one day, in slot order. -/
def firstFreeSlot (sessions : List SessionRow) (d : Str) : Option Str :=
  autoSlots.find? (fun s => check_availability sessions d s)

/-- Modelled from the spec: scan the given day offsets in order. -/
def searchDays (sessions : List SessionRow) (dateOf : Nat → Str) : List Nat → Option (Str × Str)
  | [] => none
  | k :: ks =>
    match firstFreeSlot sessions (dateOf k) with
    | some s => some (dateOf k, s)
    | none => searchDays sessions dateOf ks

/-- Modelled from the spec: the bounded 30-day search. -/
def autoschedule_search (sessions : List SessionRow) (dateOf : Nat → Str) :
    Option (Str × Str) :=
  searchDays sessions dateOf (List.range 30)

inductive AutoOutcome where
  | scheduled (d t : Str)
  | noSlotAvailable
deriving DecidableEq, Repr

/-- Modelled from the spec: persist the found slot as an offline session, or
report NoSlotAvailable. -/
def autoschedule (sessions : List SessionRow) (dateOf : Nat → Str) (newId now eid : Nat) :
    List SessionRow × AutoOutcome :=
  match autoschedule_search sessions dateOf with
  | some (d, t) => (sessions ++ [⟨newId, eid, d, t, "offline".toList, now⟩], .scheduled d t)
  | none => (sessions, .noSlotAvailable)

/-! ### The HR command surface's small regexes -/

/-- Consume the exact literal `lit` at the front of `cs`. -/
def stripLitE (lit : Str) (cs : Str) : Option Str :=
  if lit.isPrefixOf cs then some (cs.drop lit.length) else none

/-- First alternative matching exactly at the front, returning it and the rest. -/
def firstLitE (lits : List Str) (cs : Str) : Option (Str × Str) :=
  match lits with
  | [] => none
  | l :: ls =>
    match stripLitE l cs with
    | some r => some (l, r)
    | none => firstLitE ls cs

/-- The class `[A-Z0-9]` (the transcript is lower-cased first, so in practice
only digits can populate the code group). -/
def matchClassAZ09 (c : Char) : Bool := (65 ≤ c.toNat && c.toNat ≤ 90) || c.isDigit

/-- `re.search(r'code\s+([A-Z0-9]{6})', t)` attempted at one position. -/
def matchCodeAt (cs : Str) : Option Str :=
  match stripLitE "code".toList cs with
  | none => none
  | some r =>
    let ws := r.takeWhile pyIsSpace
    let r2 := r.dropWhile pyIsSpace
    if ws.isEmpty then none
    else if (r2.take 6).length == 6 && (r2.take 6).all matchClassAZ09 then some (r2.take 6)
    else none

def searchCode (t : Str) : Option Str := scanFor matchCodeAt t

/-- `\s+code` ahead of the current position (the lazy group's stop condition). -/
def wsCodeAt (cs : Str) : Bool :=
  match cs with
  | c :: r => pyIsSpace c && "code".toList.isPrefixOf (r.dropWhile pyIsSpace)
  | [] => false

/-- The lazy `(.+?)` of `for\s+(.+?)(?:\s+code|$)`: grow the group one
character at a time, stopping at the first position followed by `\s+code` or
the end of the string (`$` is modelled as end-of-string; transcripts are
newline-free). -/
def lazyGroup : Str → Option Str
  | [] => none
  | c :: r =>
    if c == '\n' then none
    else if wsCodeAt r || r.isEmpty then some [c]
    else (lazyGroup r).map (fun g => c :: g)

/-- `re.search(r'for\s+(.+?)(?:\s+code|$)', t)` attempted at one position.
When nothing follows the whitespace run, the engine backtracks `\s+` and lets
the dot consume the run's last whitespace character. -/
def matchNameAt (cs : Str) : Option Str :=
  match stripLitE "for".toList cs with
  | none => none
  | some r =>
    let ws := r.takeWhile pyIsSpace
    let body := r.dropWhile pyIsSpace
    if ws.isEmpty then none
    else
      match lazyGroup body with
      | some g => some g
      | none =>
        if body.isEmpty ∧ 2 ≤ ws.length then (ws.getLast?).map (fun w => [w]) else none

def searchName (t : Str) : Option Str := scanFor matchNameAt t

/-- Python `\w` on the lower-cased ASCII transcript. -/
def isWordChar (c : Char) : Bool := c.isAlphanum || c == '_'

def updFields : List Str := ["price".toList, "description".toList, "content".toList]

/-- `update course (\w+) (price|description|content) to (.+)` attempted at one
position, returning the captures (course name, field, value). -/
def matchUpdateAt (cs : Str) : Option (Str × Str × Str) :=
  match stripLitE "update course ".toList cs with
  | none => none
  | some r =>
    let nm := r.takeWhile isWordChar
    if nm.isEmpty then none
    else
      match r.dropWhile isWordChar with
      | ' ' :: r3 =>
        match firstLitE updFields r3 with
        | some (fld, r4) =>
          match stripLitE " to ".toList r4 with
          | some r5 =>
            let v := r5.takeWhile (fun c => c ≠ '\n')
            if v.isEmpty then none else some (nm, fld, v)
          | none => none
        | none => none
      | _ => none

def searchUpdate (t : Str) : Option (Str × Str × Str) := scanFor matchUpdateAt t

/-! ### The conversation step (`HR_Assistant.generate_ai_response`)

The step models one turn for a bound employee (`self.employee_id` set and the
name known), which is the branch all the claims are about.  Fields of
`HR_Assistant` that are only fed to external collaborators (phone number, SMS
consent, unique code, audio caches, `last_response`, which is written but
never read) are omitted; the generative backend's reply for the turn is the
oracle argument `aiText`.  The user-facing reply of each branch is recorded
structurally in the interaction audit (`Reply`); its literal template wording
interpolates the payloads shown. -/

inductive Reply where
  | hrLoginOk
  | hrPasswordPrompt
  | interactionsView (ident : Str)
  | courseUpdate (m : CourseUpdMsg)
  | updateUsagePrompt
  | statusReportText (total : Nat)
  | logoutOk
  | cachedReply (key : Str)
  | askOnlineOffline (course : Str)
  | askCourseNameAgain
  | courseList (names : List Str)
  | noCoursesAvailable
  | askChoice
  | askWhenFree (mode : Str) (course : Option Str)
  | askOnlineOfflineAgain
  | courseDetailsReply (name : Str)
  | courseNotFound (name : Str)
  | courseNotFoundGeneric
  | rescheduleAskMode (course : Option Str)
  | rescheduleAskWhen (mode : Str) (course : Option Str)
  | geminiText (s : Str)
  | bookOutcome (r : BookResult)
deriving DecidableEq, Repr

/-- One row of `employee_interactions`. -/
structure Interaction where
  employee_id : Nat
  employee_query : Str
  ai_response : Reply
  created_at : Nat
deriving DecidableEq, Repr

/-- The persistent store seen by the conversation core. -/
structure DB where
  sessions : List SessionRow
  interactions : List Interaction
  hr_commands : List HRCmd
  courses : List Course
deriving DecidableEq, Repr

/-- The in-process conversation context of `HR_Assistant`. -/
structure AssistantState where
  employee_id : Nat
  employee_name : Str
  selected_course : Option Str
  counseling_mode : Option Str
  counseling_context : Option Str
  last_intent : Option Str
  is_hr_authenticated : Bool
  hr_user : Str
deriving DecidableEq, Repr

/-- The privileged action a turn executes, if any. -/
inductive PrivAction where
  | viewInteractions (ident : Str)
  | updateCourse (course_name field value : Str)
  | statusReport
  | logoutCmd
deriving DecidableEq, Repr

abbrev StepOut := AssistantState × DB × Option PrivAction

def HR_PASSWORD : Str := "regex123".toList

/-- `save_interaction` (append-only turn audit). -/
def saveInteraction (db : DB) (eid : Nat) (q : Str) (r : Reply) (now : Nat) : DB :=
  { db with interactions := db.interactions ++ [⟨eid, q, r, now⟩] }

/-- The `view interactions` identifier (`code …` before `name …`, falling back
to the current employee); `.group(1).strip()` is applied to the name capture. -/
def viewIdentifier (t : Str) (employee_name : Str) : Str :=
  match searchCode t with
  | some c => "code ".toList ++ c
  | none =>
    match searchName t with
    | some nm => "name ".toList ++ pyStrip nm
    | none => "name ".toList ++ employee_name

/-- The authenticated command block (lines guarded by `self.is_hr_authenticated`);
`none` falls through to the regular dialogue handling. -/
def hr_command_step (st : AssistantState) (db : DB) (transcript t : Str) (now : Nat) :
    Option StepOut :=
  if containsSub t "view interactions".toList then
    let ident := viewIdentifier t st.employee_name
    let db1 := saveInteraction db st.employee_id transcript (.interactionsView ident) now
    some (st,
      { db1 with hr_commands := db1.hr_commands ++ [.viewedInteractions ident st.hr_user] },
      some (.viewInteractions ident))
  else if containsSub t "update course".toList then
    match searchUpdate t with
    | some (nm, fld, v) =>
      match update_course_details db.courses db.hr_commands nm fld v st.hr_user with
      | some (courses1, audit1, m) =>
        some (st,
          saveInteraction { db with courses := courses1, hr_commands := audit1 }
            st.employee_id transcript (.courseUpdate m) now,
          some (.updateCourse nm fld v))
      | none =>
        -- float(value) raised ValueError; the turn-boundary handler catches it and
        -- replies over audio only: no state change, no interaction row
        some (st, db, some (.updateCourse nm fld v))
    | none =>
      some (st, saveInteraction db st.employee_id transcript .updateUsagePrompt now, none)
  else if containsSub t "status report".toList then
    let db1 := saveInteraction db st.employee_id transcript
      (.statusReportText db.sessions.length) now
    some (st,
      { db1 with hr_commands := db1.hr_commands ++ [.statusReportDone st.hr_user] },
      some .statusReport)
  else if containsSub t "logout".toList then
    some ({ st with is_hr_authenticated := false },
      saveInteraction db st.employee_id transcript .logoutOk now, some .logoutCmd)
  else none

def response_cache_keys : List Str :=
  ["schedule counseling".toList, "reschedule counseling".toList, "course details".toList,
   "available courses".toList, "just schedule".toList]

/-- The `RESPONSE_CACHE` shortcut (exact key, only before a course is selected). -/
def step_cache (st : AssistantState) (db : DB) (transcript t : Str) (now : Nat) :
    Option StepOut :=
  if response_cache_keys.contains t && st.selected_course.isNone then
    let intent :=
      if containsSub t "reschedule".toList then "reschedule".toList
      else if containsSub t "schedule".toList then "schedule".toList
      else "course".toList
    some ({ st with
              last_intent := some intent,
              counseling_context :=
                if t == "schedule counseling".toList then some "awaiting_choice".toList
                else st.counseling_context },
          saveInteraction db st.employee_id transcript (.cachedReply t) now, none)
  else none

def justSchedulePhrases : List Str :=
  ["just schedule".toList, "book counseling".toList, "schedule now".toList,
   "schedule only session".toList]

def helpPhrases : List Str :=
  ["need counseling".toList, "help choosing".toList, "suggest courses".toList]

def anyIn (phrases : List Str) (t : Str) : Bool := phrases.any (fun p => containsSub t p)

/-- The `awaiting_choice` context block. -/
def step_awaiting_choice (st : AssistantState) (db : DB) (transcript t : Str)
    (dc : Option Str) (now : Nat) : Option StepOut :=
  if st.counseling_context == some "awaiting_choice".toList then
    if anyIn justSchedulePhrases t then
      match dc with
      | some c =>
        some ({ st with
                  selected_course := some c,
                  counseling_context := some "awaiting_mode".toList },
              saveInteraction db st.employee_id transcript (.askOnlineOffline c) now, none)
      | none =>
        match st.selected_course with
        | some c =>
          some ({ st with counseling_context := some "awaiting_mode".toList },
                saveInteraction db st.employee_id transcript (.askOnlineOffline c) now, none)
        | none =>
          some (st, saveInteraction db st.employee_id transcript .askCourseNameAgain now, none)
    else
      match dc with
      | some c =>
        some ({ st with
                  selected_course := some c,
                  counseling_context := some "awaiting_mode".toList },
              saveInteraction db st.employee_id transcript (.askOnlineOffline c) now, none)
      | none =>
        if anyIn helpPhrases t then
          if db.courses.isEmpty then
            some ({ st with counseling_context := some "course_suggestion".toList },
                  saveInteraction db st.employee_id transcript .noCoursesAvailable now, none)
          else
            some ({ st with
                      counseling_context := some "course_suggestion".toList,
                      last_intent := some "course_suggestion".toList },
                  saveInteraction db st.employee_id transcript
                    (.courseList (db.courses.map (fun c => c.course_name))) now, none)
        else none
  else none

/-- The `awaiting_mode` context block. -/
def step_awaiting_mode (st : AssistantState) (db : DB) (transcript t : Str) (now : Nat) :
    Option StepOut :=
  if st.counseling_context == some "awaiting_mode".toList then
    if containsSub t "online".toList then
      some ({ st with
                counseling_mode := some "online".toList, counseling_context := none,
                last_intent := some "schedule".toList },
            saveInteraction db st.employee_id transcript
              (.askWhenFree "online".toList st.selected_course) now, none)
    else if containsSub t "offline".toList then
      some ({ st with
                counseling_mode := some "offline".toList, counseling_context := none,
                last_intent := some "schedule".toList },
            saveInteraction db st.employee_id transcript
              (.askWhenFree "offline".toList st.selected_course) now, none)
    else
      some (st, saveInteraction db st.employee_id transcript .askOnlineOfflineAgain now, none)
  else none

def scheduleBookPhrases : List Str :=
  ["schedule".toList, "book".toList, "counseling".toList]

/-- The post-suggestion block (`course_suggestion` context plus a schedule-ish phrase). -/
def step_course_sugg (st : AssistantState) (db : DB) (transcript t : Str) (now : Nat) :
    Option StepOut :=
  if st.counseling_context == some "course_suggestion".toList && anyIn scheduleBookPhrases t then
    some ({ st with counseling_context := some "awaiting_choice".toList },
          saveInteraction db st.employee_id transcript .askChoice now, none)
  else none

def course_inquiry_keywords : List Str :=
  ["course".toList, "courses".toList, "python".toList, "java".toList,
   "data science".toList, "web development".toList]

/-- The course-inquiry block. -/
def step_course_inquiry (st : AssistantState) (db : DB) (transcript t : Str)
    (dc : Option Str) (now : Nat) : Option StepOut :=
  if course_inquiry_keywords.any (fun k => containsSub t k) then
    let course_name :=
      match dc with
      | some c => some c
      | none =>
        match st.selected_course with
        | some c => some c
        | none => course_inquiry_keywords.find? (fun k => containsSub t k)
    match course_name with
    | some cn =>
      match fetch_course_details db.courses cn with
      | some cd =>
        some ({ st with
                  selected_course := some cd.course_name,
                  counseling_context := some "awaiting_mode".toList,
                  last_intent := some "course".toList },
              saveInteraction db st.employee_id transcript
                (.courseDetailsReply cd.course_name) now, none)
      | none =>
        some ({ st with last_intent := some "course".toList },
              saveInteraction db st.employee_id transcript (.courseNotFound cn) now, none)
    | none =>
      some ({ st with last_intent := some "course".toList },
            saveInteraction db st.employee_id transcript .courseNotFoundGeneric now, none)
  else none

def rescheduleTriggerPhrases : List Str :=
  ["reschedule".toList, "change my session".toList, "move my session".toList]

def confirmPhrases : List Str :=
  ["yes".toList, "correct".toList, "confirm".toList, "all details are correct".toList]

/-- The final block: send the turn to the generative backend (oracle `aiText`),
record its reply, then book or reschedule from that reply's text. -/
def step_gemini (st : AssistantState) (db : DB) (transcript t aiText : Str)
    (now newId : Nat) : StepOut :=
  let ai := pyStrip aiText
  let db1 := saveInteraction db st.employee_id transcript (.geminiText ai) now
  let is_resched := anyIn rescheduleTriggerPhrases t
  let is_conf := anyIn confirmPhrases t
  let is_mode := containsSub t "online".toList || containsSub t "offline".toList
  let ai_resched := containsSub (pyLower ai) "rescheduled".toList
  if is_resched then
    ({ st with
         last_intent := some "reschedule".toList,
         counseling_context := some "awaiting_mode".toList },
     saveInteraction db1 st.employee_id transcript (.rescheduleAskMode st.selected_course) now,
     none)
  else if is_conf && (st.last_intent == some "reschedule".toList || ai_resched) then
    let mode := st.counseling_mode.getD "offline".toList
    let p := reschedule_session db1.sessions newId now st.employee_id mode ai
    ({ st with last_intent := some "reschedule".toList },
     saveInteraction { db1 with sessions := p.1 } st.employee_id transcript (.bookOutcome p.2) now,
     none)
  else if is_mode && st.last_intent == some "reschedule".toList then
    let m := if containsSub t "online".toList then "online".toList else "offline".toList
    ({ st with counseling_mode := some m, counseling_context := none },
     saveInteraction db1 st.employee_id transcript (.rescheduleAskWhen m st.selected_course) now,
     none)
  else
    let mode := st.counseling_mode.getD "offline".toList
    let p := save_session db1.sessions newId now st.employee_id mode ai
    ({ st with last_intent := some "schedule".toList },
     saveInteraction { db1 with sessions := p.1 } st.employee_id transcript (.bookOutcome p.2) now,
     none)

/-- The non-privileged dialogue handling, in the source's fall-through order. -/
def dialog_step (st : AssistantState) (db : DB) (transcript t aiText : Str)
    (now newId : Nat) : StepOut :=
  match step_cache st db transcript t now with
  | some o => o
  | none =>
    let dc := detect_course t st.selected_course
    match step_awaiting_choice st db transcript t dc now with
    | some o => o
    | none =>
      match step_awaiting_mode st db transcript t now with
      | some o => o
      | none =>
        match step_course_sugg st db transcript t now with
        | some o => o
        | none =>
          match step_course_inquiry st db transcript t dc now with
          | some o => o
          | none => step_gemini st db transcript t aiText now newId

/-- One turn of `generate_ai_response`: the HR-login check runs first, then
the authenticated command surface, then the dialogue. -/
def generate_ai_response (st : AssistantState) (db : DB) (transcript aiText : Str)
    (now newId : Nat) : StepOut :=
  let t := pyStrip (pyLower transcript)
  if containsSub t "hr login".toList then
    if containsSub t HR_PASSWORD then
      ({ st with is_hr_authenticated := true, hr_user := st.employee_name },
       saveInteraction db st.employee_id transcript .hrLoginOk now, none)
    else
      (st, saveInteraction db st.employee_id transcript .hrPasswordPrompt now, none)
  else if st.is_hr_authenticated then
    match hr_command_step st db transcript t now with
    | some o => o
    | none => dialog_step st db transcript t aiText now newId
  else dialog_step st db transcript t aiText now newId

/-- One transcript of a conversation: the turn inputs in order. -/
structure TurnIn where
  transcript : Str
  aiText : Str
  now : Nat
  newId : Nat
deriving DecidableEq, Repr

/-- Run a list of turns, collecting each turn's privileged action. -/
def runTurns (st : AssistantState) (db : DB) :
    List TurnIn → AssistantState × DB × List (Option PrivAction)
  | [] => (st, db, [])
  | u :: us =>
    let o := generate_ai_response st db u.transcript u.aiText u.now u.newId
    let rest := runTurns o.1 o.2.1 us
    (rest.1, rest.2.1, o.2.2 :: rest.2.2)

/-! ### Theorems -/

/-- Appending a row whose slot the Availability Checker reported free preserves
slot exclusivity. -/
theorem slotInvariant_append {sessions : List SessionRow} {row : SessionRow}
    (h : slotInvariant sessions)
    (hfree : check_availability sessions row.session_date row.session_time = true) :
    slotInvariant (sessions ++ [row]) := by
  have hcount : countSlot sessions row.session_date row.session_time = 0 := by
    simpa [check_availability] using hfree
  have hnone : ∀ s ∈ sessions,
      ¬(s.session_date = row.session_date ∧ s.session_time = row.session_time) := by
    intro s hs
    have : (sessions.filter
        (fun s => s.session_date == row.session_date && s.session_time == row.session_time)) = [] :=
      List.length_eq_zero.mp hcount
    intro hc
    have hmem : s ∈ sessions.filter
        (fun s => s.session_date == row.session_date && s.session_time == row.session_time) := by
      refine List.mem_filter.mpr ⟨hs, ?_⟩
      simp [hc.1, hc.2]
    rw [this] at hmem
    exact absurd hmem (List.not_mem_nil s)
  refine List.pairwise_append.mpr ⟨h, List.pairwise_singleton _ _, ?_⟩
  intro a ha b hb
  have hb' : b = row := by simpa using hb
  subst hb'
  exact hnone a ha

/-- C1: a booking is inserted exactly when the Availability Checker reports
the (date, time) pair free — when it is taken, `save_session` returns the
slot-taken conflict outcome and inserts nothing — and `save_session` preserves
the system-wide slot-exclusivity invariant on every path. -/
theorem save_session_slot_exclusive :
    (∀ (sessions : List SessionRow) (newId now eid : Nat) (mode resp d0 t0 d t : Str),
      searchSession resp = some (d0, t0) → fixYear d0 = some d → normTime t0 = some t →
        (check_availability sessions d t = true →
          save_session sessions newId now eid mode resp
            = (sessions ++ [⟨newId, eid, d, t, mode, now⟩], .booked d t)) ∧
        (check_availability sessions d t = false →
          save_session sessions newId now eid mode resp = (sessions, .slotTaken))) ∧
    (∀ (sessions : List SessionRow) (newId now eid : Nat) (mode resp : Str),
      slotInvariant sessions → slotInvariant (save_session sessions newId now eid mode resp).1) := by
  constructor
  · intro sessions newId now eid mode resp d0 t0 d t hs hd ht
    constructor
    · intro hav
      simp [save_session, hs, hd, ht, hav]
    · intro hav
      simp [save_session, hs, hd, ht, hav]
  · intro sessions newId now eid mode resp hinv
    cases hs : searchSession resp with
    | none => simp [save_session, hs, hinv]
    | some p =>
      obtain ⟨d0, t0⟩ := p
      cases hd : fixYear d0 with
      | none => simp [save_session, hs, hd, hinv]
      | some d =>
        cases ht : normTime t0 with
        | none => simp [save_session, hs, hd, ht, hinv]
        | some t =>
          by_cases hav : check_availability sessions d t = true
          · have happ := @slotInvariant_append sessions ⟨newId, eid, d, t, mode, now⟩ hinv hav
            simpa [save_session, hs, hd, ht, hav] using happ
          · simp only [Bool.not_eq_true] at hav
            simp [save_session, hs, hd, ht, hav, hinv]

/-- Witness for `save_session_slot_exclusive` at a concrete booking. -/
theorem save_session_slot_exclusive_witness :
    save_session [] 1 2 3 "offline".toList "scheduled for 2025-05-15 at 11:00 AM".toList
      = ([⟨1, 3, "2025-05-15".toList, "11:00".toList, "offline".toList, 2⟩],
         .booked "2025-05-15".toList "11:00".toList) :=
  (save_session_slot_exclusive.1 [] 1 2 3 "offline".toList
    "scheduled for 2025-05-15 at 11:00 AM".toList
    "2025-05-15".toList "11:00 AM".toList "2025-05-15".toList "11:00".toList
    (by decide) (by decide) (by decide)).1 (by decide)

/-- C4: whenever the extracted date parses to a year below 2025, the year
component is rewritten to 2025 and the remainder of the date (month and day)
is kept verbatim; in particular `"scheduled for 2023-05-15 at 10:00"`
extracts to the date `2025-05-15` (with its time untouched). -/
theorem year_rewritten_to_2025 :
    (∀ (d0 : Str) (y : Nat),
      parseDigitsNat (d0.takeWhile (fun c => c ≠ '-')) = some y → y < 2025 →
        fixYear d0 = some ("2025".toList ++ d0.drop 4) ∧
        ("2025".toList ++ d0.drop 4).drop 4 = d0.drop 4) ∧
    searchSession "scheduled for 2023-05-15 at 10:00".toList
      = some ("2023-05-15".toList, "10:00".toList) ∧
    fixYear "2023-05-15".toList = some "2025-05-15".toList ∧
    normTime "10:00".toList = some "10:00".toList := by
  refine ⟨?_, by decide, by decide, by decide⟩
  intro d0 y hy hlt
  refine ⟨?_, rfl⟩
  unfold fixYear
  rw [hy]
  simp [hlt]

/-- Witness for `year_rewritten_to_2025` on the documented example. -/
theorem year_rewritten_to_2025_witness :
    fixYear "2023-05-15".toList = some ("2025".toList ++ ("2023-05-15".toList).drop 4) :=
  (year_rewritten_to_2025.1 "2023-05-15".toList 2023 (by decide) (by decide)).1

/-- C5: `"scheduled for 2025-05-15 at 11:00 AM"` extracts to date
`2025-05-15` and time `11:00`; in general a matched time token carrying AM/PM
is converted to 24-hour form when `strptime` parses it, and otherwise
`save_session` returns the TimeFormatError re-prompt (a value, not an
exception — `save_session` is total). -/
theorem am_pm_time_normalization :
    (searchSession "scheduled for 2025-05-15 at 11:00 AM".toList
       = some ("2025-05-15".toList, "11:00 AM".toList) ∧
     normTime "11:00 AM".toList = some "11:00".toList) ∧
    (∀ t0 : Str, hasAmPm t0 = true →
      (∀ h m, strptimeIMp t0 = some (h, m) →
        normTime t0 = some (twoDigits h ++ ':' :: twoDigits m)) ∧
      (strptimeIMp t0 = none → normTime t0 = none)) ∧
    (∀ (sessions : List SessionRow) (newId now eid : Nat) (mode resp d0 t0 d : Str),
      searchSession resp = some (d0, t0) → fixYear d0 = some d →
      hasAmPm t0 = true → strptimeIMp t0 = none →
        save_session sessions newId now eid mode resp = (sessions, .invalidTime)) ∧
    bookMsg .invalidTime = some "Invalid time format. Please say it again, like 11:00 AM." := by
  refine ⟨⟨by decide, by decide⟩, ?_, ?_, rfl⟩
  · intro t0 hap
    constructor
    · intro h m hp
      simp [normTime, hap, hp]
    · intro hp
      simp [normTime, hap, hp]
  · intro sessions newId now eid mode resp d0 t0 d hs hd hap hp
    have hnt : normTime t0 = none := by simp [normTime, hap, hp]
    simp [save_session, hs, hd, hnt]

/-- Witness for `am_pm_time_normalization` at the documented example. -/
theorem am_pm_time_normalization_witness :
    normTime "11:00 AM".toList = some (twoDigits 11 ++ ':' :: twoDigits 0) :=
  (am_pm_time_normalization.2.1 "11:00 AM".toList (by decide)).1 11 0 (by decide)

/-- C10: the time part of the extraction pattern demands exactly two digits
for the hour and two for the minute (`\d{2}:\d{2}`), so a single-digit hour
such as in `"scheduled for 2025-05-15 at 9:00 AM"` makes the whole pattern
fail and `save_session` answers the no-date-time re-prompt even though the
text carries a valid date and time. -/
theorem single_digit_hour_rejected :
    (∀ (cs t r : Str), matchTime cs = some (t, r) →
      ∃ a b c d rest, cs = a :: b :: ':' :: c :: d :: rest ∧
        a.isDigit ∧ b.isDigit ∧ c.isDigit ∧ d.isDigit) ∧
    searchSession "scheduled for 2025-05-15 at 9:00 AM".toList = none ∧
    (∀ (sessions : List SessionRow) (newId now eid : Nat) (mode : Str),
      save_session sessions newId now eid mode "scheduled for 2025-05-15 at 9:00 AM".toList
        = (sessions, .noDateTime)) ∧
    bookMsg .noDateTime
      = some "I didn't catch the date and time. Could you say it again, like May 15, 2025 at 11 AM?" := by
  have hnone : searchSession "scheduled for 2025-05-15 at 9:00 AM".toList = none := by decide
  refine ⟨?_, hnone, ?_, rfl⟩
  · intro cs t r h
    unfold matchTime at h
    split at h
    · next a b c d rest =>
      refine ⟨a, b, c, d, rest, rfl, ?_⟩
      split at h
      · next hd =>
        simp only [List.all_cons, List.all_nil, Bool.and_eq_true, and_true] at hd
        exact ⟨hd.1, hd.2.1, hd.2.2.1, hd.2.2.2⟩
      · exact absurd h (by simp)
    · exact absurd h (by simp)
  · intro sessions newId now eid mode
    unfold save_session
    rw [hnone]

/-- Witness for `single_digit_hour_rejected`: the matcher's shape inversion at
a concrete accepted token, and the re-prompt on the rejected text. -/
theorem single_digit_hour_rejected_witness :
    (∃ a b c d rest, "11:00".toList = a :: b :: ':' :: c :: d :: rest ∧
      a.isDigit ∧ b.isDigit ∧ c.isDigit ∧ d.isDigit) ∧
    save_session [] 1 2 3 "offline".toList
      "scheduled for 2025-05-15 at 9:00 AM".toList = ([], .noDateTime) :=
  ⟨single_digit_hour_rejected.1 "11:00".toList "11:00".toList [] (by decide),
   single_digit_hour_rejected.2.2.1 [] 1 2 3 "offline".toList⟩

/-- C6: a price update is rejected with the explanatory floor message and no
mutation whenever the parsed value is at most 12000; any value above 12000 is
accepted and applied to every matching course (with an audit row appended);
and when no course matches the name, the not-found message is returned with no
mutation. -/
theorem update_course_price_floor :
    (∀ (courses : List Course) (audit : List HRCmd) (nm value exec : Str) (q : ℚ),
      pyFloat value = some q →
        (q ≤ 12000 →
          update_course_details courses audit nm "price".toList value exec
            = some (courses, audit, .priceTooLow)) ∧
        (12000 < q → (∀ c ∈ courses, likeContains c.course_name nm = false) →
          update_course_details courses audit nm "price".toList value exec
            = some (courses, audit, .notFound)) ∧
        (12000 < q → (∃ c ∈ courses, likeContains c.course_name nm = true) →
          update_course_details courses audit nm "price".toList value exec
            = some (courses.map (fun c =>
                      if likeContains c.course_name nm then { c with fees := q } else c),
                    audit ++ [.updatedCourse "price".toList nm (.num q) exec],
                    .updated "price".toList nm))) ∧
    courseUpdMsgText .priceTooLow = "Course price must be above 12,000 INR." ∧
    courseUpdMsgText .notFound = "Course not found." := by
  refine ⟨?_, rfl, rfl⟩
  intro courses audit nm value exec q hq
  have hfl : (pyLower "price".toList == "price".toList) = true := by decide
  refine ⟨?_, ?_, ?_⟩
  · intro hle
    unfold update_course_details
    simp only [hfl]
    rw [hq]
    simp [hle]
  · intro hgt hnomatch
    have hany : courses.any (fun c => likeContains c.course_name nm) = false := by
      simp only [List.any_eq_false]
      intro c hc
      simp [hnomatch c hc]
    unfold update_course_details
    simp only [hfl]
    rw [hq]
    simp [not_le.mpr hgt, hany]
  · intro hgt hmatch
    have hany : courses.any (fun c => likeContains c.course_name nm) = true := by
      simp only [List.any_eq_true]
      obtain ⟨c, hc, hl⟩ := hmatch
      exact ⟨c, hc, hl⟩
    unfold update_course_details
    simp only [hfl]
    rw [hq]
    simp [not_le.mpr hgt, hany]

/-- Witness for `update_course_price_floor`: 10000 is rejected, 16000 applied. -/
theorem update_course_price_floor_witness :
    update_course_details [⟨"Python Programming".toList, [], [], 15000, []⟩] []
        "python".toList "price".toList "10000".toList "bob".toList
      = some ([⟨"Python Programming".toList, [], [], 15000, []⟩], [], .priceTooLow) ∧
    update_course_details [⟨"Python Programming".toList, [], [], 15000, []⟩] []
        "python".toList "price".toList "16000".toList "bob".toList
      = some ([⟨"Python Programming".toList, [], [], 16000, []⟩],
              [.updatedCourse "price".toList "python".toList (.num 16000) "bob".toList],
              .updated "price".toList "python".toList) := by
  constructor
  · exact (update_course_price_floor.1 [⟨"Python Programming".toList, [], [], 15000, []⟩] []
      "python".toList "10000".toList "bob".toList 10000 (by decide)).1 (by norm_num)
  · have h := (update_course_price_floor.1 [⟨"Python Programming".toList, [], [], 15000, []⟩] []
      "python".toList "16000".toList "bob".toList 16000 (by decide)).2.2 (by norm_num)
      ⟨⟨"Python Programming".toList, [], [], 15000, []⟩, by decide, by decide⟩
    simpa using h

/-- C8: the Course Resolver returns the catalog's mapped canonical name for
the first keyword the transcript contains; when no keyword matches it returns
the previously-selected course unchanged (context carry-over), hence nothing
when no prior context exists either. -/
theorem detect_course_resolution :
    (∀ (t : Str) (prev : Option Str) (k : Str),
      course_keywords.find? (fun k => containsSub t k) = some k →
        ∃ nm, course_map k = some nm ∧ detect_course t prev = some nm) ∧
    (∀ (t : Str) (prev : Option Str),
      (∀ k ∈ course_keywords, containsSub t k = false) → detect_course t prev = prev) ∧
    detect_course "i would like java please".toList none = some "Java Development".toList ∧
    detect_course "something unrelated".toList (some "Data Science".toList)
      = some "Data Science".toList ∧
    detect_course "something unrelated".toList none = none := by
  refine ⟨?_, ?_, by decide, by decide, by decide⟩
  · intro t prev k hk
    have hmem : k ∈ course_keywords := List.mem_of_find?_eq_some hk
    have hmap : ∃ nm, course_map k = some nm := by
      fin_cases hmem <;> exact ⟨_, rfl⟩
    obtain ⟨nm, hnm⟩ := hmap
    exact ⟨nm, hnm, by simp [detect_course, hk, hnm]⟩
  · intro t prev hno
    have hfind : course_keywords.find? (fun k => containsSub t k) = none := by
      simp only [List.find?_eq_none]
      intro k hk
      simp [hno k hk]
    simp [detect_course, hfind]

/-- Witness for `detect_course_resolution` at a fresh keyword match. -/
theorem detect_course_resolution_witness :
    ∃ nm, course_map "python".toList = some nm ∧
      detect_course "teach me python now".toList (some "Java Development".toList) = some nm :=
  detect_course_resolution.1 "teach me python now".toList (some "Java Development".toList)
    "python".toList (by decide)

/-- Any hit of `searchDays` lies on a scanned day, is one of the fixed slots,
and is reported free by the Availability Checker. -/
theorem searchDays_sound (sessions : List SessionRow) (dateOf : Nat → Str) :
    ∀ (days : List Nat) (d t : Str), searchDays sessions dateOf days = some (d, t) →
      ∃ k ∈ days, d = dateOf k ∧ t ∈ autoSlots ∧ check_availability sessions d t = true := by
  intro days
  induction days with
  | nil => intro d t h; simp [searchDays] at h
  | cons k ks ih =>
    intro d t h
    unfold searchDays at h
    cases hf : firstFreeSlot sessions (dateOf k) with
    | some s =>
      rw [hf] at h
      cases h
      refine ⟨k, by simp, rfl, ?_, ?_⟩
      · exact List.mem_of_find?_eq_some hf
      · exact List.find?_some hf
    | none =>
      rw [hf] at h
      obtain ⟨k', hk', hd, hs⟩ := ih d t h
      exact ⟨k', by simp [hk'], hd, hs⟩

/-- `searchDays` fails when every scanned day has no free slot. -/
theorem searchDays_exhausted (sessions : List SessionRow) (dateOf : Nat → Str) :
    ∀ days : List Nat, (∀ k ∈ days, firstFreeSlot sessions (dateOf k) = none) →
      searchDays sessions dateOf days = none := by
  intro days
  induction days with
  | nil => intro _; rfl
  | cons k ks ih =>
    intro h
    unfold searchDays
    rw [h k (by simp)]
    exact ih (fun k' hk' => h k' (by simp [hk']))

/-- C3 (spec-modelled): Autoschedule only ever returns a (date, slot) within
the 30-day horizon that the Availability Checker reports available and
persists exactly that pair; when all three slots of the anchor day are
occupied it returns the next day's first open slot (when that day has one);
and an exhausted horizon yields the NoSlotAvailable outcome with nothing
persisted. -/
theorem autoschedule_bounded_search :
    (∀ (sessions : List SessionRow) (dateOf : Nat → Str) (d t : Str),
      autoschedule_search sessions dateOf = some (d, t) →
        (∃ k < 30, d = dateOf k) ∧ t ∈ autoSlots ∧ check_availability sessions d t = true) ∧
    (∀ (sessions : List SessionRow) (dateOf : Nat → Str) (t : Str),
      (∀ s ∈ autoSlots, check_availability sessions (dateOf 0) s = false) →
      firstFreeSlot sessions (dateOf 1) = some t →
        autoschedule_search sessions dateOf = some (dateOf 1, t)) ∧
    (∀ (sessions : List SessionRow) (dateOf : Nat → Str) (newId now eid : Nat),
      (∀ k < 30, ∀ s ∈ autoSlots, check_availability sessions (dateOf k) s = false) →
        autoschedule sessions dateOf newId now eid = (sessions, .noSlotAvailable)) ∧
    (∀ (sessions : List SessionRow) (dateOf : Nat → Str) (newId now eid : Nat) (d t : Str),
      autoschedule_search sessions dateOf = some (d, t) →
        autoschedule sessions dateOf newId now eid
          = (sessions ++ [⟨newId, eid, d, t, "offline".toList, now⟩], .scheduled d t)) := by
  refine ⟨?_, ?_, ?_, ?_⟩
  · intro sessions dateOf d t h
    obtain ⟨k, hk, hd, hs, hav⟩ := searchDays_sound sessions dateOf (List.range 30) d t h
    exact ⟨⟨k, List.mem_range.mp hk, hd⟩, hs, hav⟩
  · intro sessions dateOf t h0 h1
    have hfirst : firstFreeSlot sessions (dateOf 0) = none := by
      simp only [firstFreeSlot, List.find?_eq_none]
      intro s hs
      simp [h0 s hs]
    have hrange : List.range 30 = 0 :: 1 :: List.range' 2 28 := by decide
    unfold autoschedule_search
    rw [hrange]
    unfold searchDays
    rw [hfirst]
    unfold searchDays
    rw [h1]
  · intro sessions dateOf newId now eid h
    have hsearch : autoschedule_search sessions dateOf = none := by
      apply searchDays_exhausted
      intro k hk
      simp only [firstFreeSlot, List.find?_eq_none]
      intro s hs
      simp [h k (List.mem_range.mp hk) s hs]
    simp [autoschedule, hsearch]
  · intro sessions dateOf newId now eid d t h
    simp [autoschedule, h]

/-- Witness for `autoschedule_bounded_search`: with the anchor day fully
booked, the next day's 10:00 slot is returned. -/
theorem autoschedule_bounded_search_witness :
    autoschedule_search
      [⟨1, 1, "d0".toList, "10:00".toList, "offline".toList, 0⟩,
       ⟨2, 1, "d0".toList, "14:00".toList, "offline".toList, 0⟩,
       ⟨3, 1, "d0".toList, "16:00".toList, "offline".toList, 0⟩]
      (fun k => if k == 0 then "d0".toList else "d1".toList)
      = some ("d1".toList, "10:00".toList) :=
  autoschedule_bounded_search.2.1
    [⟨1, 1, "d0".toList, "10:00".toList, "offline".toList, 0⟩,
     ⟨2, 1, "d0".toList, "14:00".toList, "offline".toList, 0⟩,
     ⟨3, 1, "d0".toList, "16:00".toList, "offline".toList, 0⟩]
    (fun k => if k == 0 then "d0".toList else "d1".toList)
    "10:00".toList (by decide) (by decide)

/-- C7 (amended): when the reschedule text parses and the new slot is free,
an employee with an existing session has exactly their most recent session
updated in place — the row count is unchanged, rows of other sessions are
untouched, and the updated row keeps its id and employee reference, with only
date, time, mode and creation timestamp refreshed; an employee with no
session has the turn delegated to `save_session` (Book) on the same text,
which inserts a row only when its own extraction succeeds as well. -/
theorem reschedule_in_place :
    (∀ (sessions : List SessionRow) (newId now eid : Nat) (mode resp d0 t0 d t : Str)
       (ex : SessionRow),
      searchResched resp = some (d0, t0) → fixYear d0 = some d → normTime t0 = some t →
      check_availability sessions d t = true →
      fetch_session sessions eid = some ex →
        reschedule_session sessions newId now eid mode resp
          = (sessions.map (fun s =>
               if s.id == ex.id && s.employee_id == eid then
                 { s with session_date := d, session_time := t, mode := mode, created_at := now }
               else s),
             .rescheduled d t) ∧
        (reschedule_session sessions newId now eid mode resp).1.length = sessions.length ∧
        (∀ s ∈ sessions, ¬(s.id = ex.id ∧ s.employee_id = eid) →
          s ∈ (reschedule_session sessions newId now eid mode resp).1) ∧
        (∀ s : SessionRow,
          ({ s with session_date := d, session_time := t, mode := mode, created_at := now } : SessionRow).id = s.id ∧
          ({ s with session_date := d, session_time := t, mode := mode, created_at := now } : SessionRow).employee_id = s.employee_id)) ∧
    (∀ (sessions : List SessionRow) (newId now eid : Nat) (mode resp d0 t0 d t : Str),
      searchResched resp = some (d0, t0) → fixYear d0 = some d → normTime t0 = some t →
      check_availability sessions d t = true →
      fetch_session sessions eid = none →
        reschedule_session sessions newId now eid mode resp
          = save_session sessions newId now eid mode resp) := by
  constructor
  · intro sessions newId now eid mode resp d0 t0 d t ex hs hd ht hav hex
    have heq : reschedule_session sessions newId now eid mode resp
        = (sessions.map (fun s =>
             if s.id == ex.id && s.employee_id == eid then
               { s with session_date := d, session_time := t, mode := mode, created_at := now }
             else s),
           .rescheduled d t) := by
      unfold reschedule_session
      simp only [hs, hd, ht, hav, hex]
      simp
    refine ⟨heq, ?_, ?_, fun s => ⟨rfl, rfl⟩⟩
    · rw [heq]
      exact List.length_map sessions _
    · intro s hsmem hnot
      rw [heq]
      simp only [List.mem_map]
      refine ⟨s, hsmem, ?_⟩
      have hcond : (s.id == ex.id && s.employee_id == eid) = false := by
        rcases Decidable.em (s.id = ex.id) with h1 | h1
        · rcases Decidable.em (s.employee_id = eid) with h2 | h2
          · exact absurd ⟨h1, h2⟩ hnot
          · simp [h2]
        · simp [h1]
      simp [hcond]
  · intro sessions newId now eid mode resp d0 t0 d t hs hd ht hav hex
    unfold reschedule_session
    simp only [hs, hd, ht, hav, hex]
    simp

/-- Witness for `reschedule_in_place`: the sole existing session is moved in
place, keeping its id. -/
theorem reschedule_in_place_witness :
    reschedule_session [⟨5, 7, "2025-05-10".toList, "10:00".toList, "online".toList, 3⟩]
        9 10 7 "offline".toList "rescheduled for 2025-05-20 at 11:00".toList
      = ([⟨5, 7, "2025-05-20".toList, "11:00".toList, "offline".toList, 10⟩],
         .rescheduled "2025-05-20".toList "11:00".toList) := by
  have h := (reschedule_in_place.1
    [⟨5, 7, "2025-05-10".toList, "10:00".toList, "online".toList, 3⟩]
    9 10 7 "offline".toList "rescheduled for 2025-05-20 at 11:00".toList
    "2025-05-20".toList "11:00".toList "2025-05-20".toList "11:00".toList
    ⟨5, 7, "2025-05-10".toList, "10:00".toList, "online".toList, 3⟩
    (by decide) (by decide) (by decide) (by decide) (by decide)).1
  simpa using h

/-- C7, counterexample to the claim as stated: with no existing session the
reschedule of `"rescheduled to 2025-05-15 at 10:00"` (accepted by the
reschedule pattern, slot free) is delegated to Book, but Book's own pattern
has no `to` preposition, so no new session is created — the store stays empty
and the no-date-time re-prompt is returned. -/
theorem reschedule_delegation_counterexample :
    reschedule_session [] 1 10 7 "offline".toList "rescheduled to 2025-05-15 at 10:00".toList
      = ([], .noDateTime) ∧
    searchResched "rescheduled to 2025-05-15 at 10:00".toList
      = some ("2025-05-15".toList, "10:00".toList) ∧
    check_availability [] "2025-05-15".toList "10:00".toList = true ∧
    fetch_session [] 7 = none := by decide

/-- The cache shortcut executes no privileged action and keeps the auth flag. -/
theorem step_cache_priv (st : AssistantState) (db : DB) (transcript t : Str) (now : Nat)
    (o : StepOut) (h : step_cache st db transcript t now = some o) :
    o.2.2 = none ∧ o.1.is_hr_authenticated = st.is_hr_authenticated := by
  unfold step_cache at h
  repeat' split at h
  all_goals first
    | exact Option.noConfusion h
    | (injection h with h2; subst h2; exact ⟨rfl, rfl⟩)

/-- The `awaiting_choice` block executes no privileged action and keeps the auth flag. -/
theorem step_awaiting_choice_priv (st : AssistantState) (db : DB) (transcript t : Str)
    (dc : Option Str) (now : Nat) (o : StepOut)
    (h : step_awaiting_choice st db transcript t dc now = some o) :
    o.2.2 = none ∧ o.1.is_hr_authenticated = st.is_hr_authenticated := by
  unfold step_awaiting_choice at h
  repeat' split at h
  all_goals first
    | exact Option.noConfusion h
    | (injection h with h2; subst h2; exact ⟨rfl, rfl⟩)

/-- The `awaiting_mode` block executes no privileged action and keeps the auth flag. -/
theorem step_awaiting_mode_priv (st : AssistantState) (db : DB) (transcript t : Str)
    (now : Nat) (o : StepOut) (h : step_awaiting_mode st db transcript t now = some o) :
    o.2.2 = none ∧ o.1.is_hr_authenticated = st.is_hr_authenticated := by
  unfold step_awaiting_mode at h
  repeat' split at h
  all_goals first
    | exact Option.noConfusion h
    | (injection h with h2; subst h2; exact ⟨rfl, rfl⟩)

/-- The post-suggestion block executes no privileged action and keeps the auth flag. -/
theorem step_course_sugg_priv (st : AssistantState) (db : DB) (transcript t : Str)
    (now : Nat) (o : StepOut) (h : step_course_sugg st db transcript t now = some o) :
    o.2.2 = none ∧ o.1.is_hr_authenticated = st.is_hr_authenticated := by
  unfold step_course_sugg at h
  repeat' split at h
  all_goals first
    | exact Option.noConfusion h
    | (injection h with h2; subst h2; exact ⟨rfl, rfl⟩)

/-- The course-inquiry block executes no privileged action and keeps the auth flag. -/
theorem step_course_inquiry_priv (st : AssistantState) (db : DB) (transcript t : Str)
    (dc : Option Str) (now : Nat) (o : StepOut)
    (h : step_course_inquiry st db transcript t dc now = some o) :
    o.2.2 = none ∧ o.1.is_hr_authenticated = st.is_hr_authenticated := by
  unfold step_course_inquiry at h
  split at h
  · dsimp only at h
    repeat' split at h
    all_goals first
      | exact Option.noConfusion h
      | (injection h with h2; subst h2; exact ⟨rfl, rfl⟩)
  · exact Option.noConfusion h

/-- The generative fallback executes no privileged action and keeps the auth flag. -/
theorem step_gemini_priv (st : AssistantState) (db : DB) (transcript t aiText : Str)
    (now newId : Nat) :
    (step_gemini st db transcript t aiText now newId).2.2 = none ∧
    (step_gemini st db transcript t aiText now newId).1.is_hr_authenticated
      = st.is_hr_authenticated := by
  unfold step_gemini
  dsimp only
  repeat' split
  all_goals exact ⟨rfl, rfl⟩

/-- The whole non-privileged dialogue path executes no privileged action and
keeps the auth flag. -/
theorem dialog_step_priv (st : AssistantState) (db : DB) (transcript t aiText : Str)
    (now newId : Nat) :
    (dialog_step st db transcript t aiText now newId).2.2 = none ∧
    (dialog_step st db transcript t aiText now newId).1.is_hr_authenticated
      = st.is_hr_authenticated := by
  unfold dialog_step
  cases hc : step_cache st db transcript t now with
  | some o => simpa [hc] using step_cache_priv st db transcript t now o hc
  | none =>
    simp only [hc]
    cases ha : step_awaiting_choice st db transcript t (detect_course t st.selected_course) now with
    | some o =>
      simpa [ha] using
        step_awaiting_choice_priv st db transcript t (detect_course t st.selected_course) now o ha
    | none =>
      simp only [ha]
      cases hm : step_awaiting_mode st db transcript t now with
      | some o => simpa [hm] using step_awaiting_mode_priv st db transcript t now o hm
      | none =>
        simp only [hm]
        cases hg : step_course_sugg st db transcript t now with
        | some o => simpa [hg] using step_course_sugg_priv st db transcript t now o hg
        | none =>
          simp only [hg]
          cases hi : step_course_inquiry st db transcript t (detect_course t st.selected_course) now with
          | some o =>
            simpa [hi] using
              step_course_inquiry_priv st db transcript t (detect_course t st.selected_course) now o hi
          | none =>
            simp only [hi]
            exact step_gemini_priv st db transcript t aiText now newId

/-- An unauthenticated turn executes no privileged action. -/
theorem gen_priv_none (st : AssistantState) (db : DB) (tr ai : Str) (now newId : Nat)
    (h : st.is_hr_authenticated = false) :
    (generate_ai_response st db tr ai now newId).2.2 = none := by
  unfold generate_ai_response
  dsimp only
  split
  · split
    · rfl
    · rfl
  · split
    · next ha => rw [ha] at h; exact absurd h (by simp)
    · exact (dialog_step_priv st db tr (pyStrip (pyLower tr)) ai now newId).1

/-- An unauthenticated turn without ("hr login" and the secret) leaves the
flag unauthenticated. -/
theorem gen_auth_stays (st : AssistantState) (db : DB) (tr ai : Str) (now newId : Nat)
    (h : st.is_hr_authenticated = false)
    (hno : ¬(containsSub (pyStrip (pyLower tr)) "hr login".toList = true ∧
             containsSub (pyStrip (pyLower tr)) HR_PASSWORD = true)) :
    (generate_ai_response st db tr ai now newId).1.is_hr_authenticated = false := by
  unfold generate_ai_response
  dsimp only
  split
  · next hl =>
    split
    · next hp => exact absurd ⟨hl, hp⟩ hno
    · exact h
  · split
    · next ha => rw [ha] at h; exact absurd h (by simp)
    · rw [(dialog_step_priv st db tr (pyStrip (pyLower tr)) ai now newId).2]
      exact h

/-- A `false` boolean is not `true` (used through definitional unfolding of
the scrutinised conditions). -/
theorem bool_not_true {b : Bool} (h : b = false) : ¬(b = true) := by simp [h]

/-- A turn containing "hr login" with the wrong secret re-prompts and changes
nothing but the interaction audit. -/
theorem gen_wrong_secret (st : AssistantState) (db : DB) (tr ai : Str) (now newId : Nat)
    (h1 : containsSub (pyStrip (pyLower tr)) "hr login".toList = true)
    (h2 : containsSub (pyStrip (pyLower tr)) HR_PASSWORD = false) :
    generate_ai_response st db tr ai now newId
      = (st, saveInteraction db st.employee_id tr .hrPasswordPrompt now, none) := by
  unfold generate_ai_response
  dsimp only
  rw [if_pos h1, if_neg (bool_not_true h2)]

/-- An authenticated logout turn clears the flag. -/
theorem gen_logout (st : AssistantState) (db : DB) (tr ai : Str) (now newId : Nat)
    (hauth : st.is_hr_authenticated = true)
    (hnl : containsSub (pyStrip (pyLower tr)) "hr login".toList = false)
    (hv : containsSub (pyStrip (pyLower tr)) "view interactions".toList = false)
    (hu : containsSub (pyStrip (pyLower tr)) "update course".toList = false)
    (hs : containsSub (pyStrip (pyLower tr)) "status report".toList = false)
    (hl : containsSub (pyStrip (pyLower tr)) "logout".toList = true) :
    generate_ai_response st db tr ai now newId
      = ({ st with is_hr_authenticated := false },
         saveInteraction db st.employee_id tr .logoutOk now, some .logoutCmd) := by
  have hcmd : hr_command_step st db tr (pyStrip (pyLower tr)) now
      = some ({ st with is_hr_authenticated := false },
              saveInteraction db st.employee_id tr .logoutOk now, some .logoutCmd) := by
    unfold hr_command_step
    rw [if_neg (bool_not_true hv), if_neg (bool_not_true hu), if_neg (bool_not_true hs),
      if_pos hl]
  unfold generate_ai_response
  dsimp only
  rw [if_neg (bool_not_true hnl), if_pos hauth, hcmd]

/-- Over a whole conversation that never presents "hr login" with the secret,
no privileged action fires and the flag stays down. -/
theorem runTurns_no_login (st : AssistantState) (db : DB) (turns : List TurnIn)
    (h : st.is_hr_authenticated = false)
    (hno : ∀ u ∈ turns,
      ¬(containsSub (pyStrip (pyLower u.transcript)) "hr login".toList = true ∧
        containsSub (pyStrip (pyLower u.transcript)) HR_PASSWORD = true)) :
    (∀ p ∈ (runTurns st db turns).2.2, p = none) ∧
    (runTurns st db turns).1.is_hr_authenticated = false := by
  induction turns generalizing st db with
  | nil => exact ⟨by intro p hp; simp [runTurns] at hp, h⟩
  | cons u us ih =>
    have hu := hno u (by simp)
    have hrest : ∀ u' ∈ us,
        ¬(containsSub (pyStrip (pyLower u'.transcript)) "hr login".toList = true ∧
          containsSub (pyStrip (pyLower u'.transcript)) HR_PASSWORD = true) :=
      fun u' hu' => hno u' (by simp [hu'])
    have h1 := gen_priv_none st db u.transcript u.aiText u.now u.newId h
    have h2 := gen_auth_stays st db u.transcript u.aiText u.now u.newId h hu
    obtain ⟨ha, hb⟩ := ih _ _ h2 hrest
    constructor
    · intro p hp
      unfold runTurns at hp
      dsimp only at hp
      rcases List.mem_cons.mp hp with hph | hpt
      · rw [hph]; exact h1
      · exact ha p hpt
    · unfold runTurns
      dsimp only
      exact hb

/-- C2: privileged intents are gated by the HR flag — an unauthenticated turn
never executes one and cannot raise the flag except by an utterance carrying
"hr login" plus the exact secret; a wrong secret re-prompts, leaving the flag,
the rest of the state, and everything but the interaction audit unchanged; an
authenticated logout clears the flag, making privileged intents unreachable
on the next turn; and along any conversation without a correct login no
privileged action ever fires. -/
theorem hr_privilege_gating :
    (∀ (st : AssistantState) (db : DB) (tr ai : Str) (now newId : Nat),
      st.is_hr_authenticated = false →
        (generate_ai_response st db tr ai now newId).2.2 = none) ∧
    (∀ (st : AssistantState) (db : DB) (tr ai : Str) (now newId : Nat),
      st.is_hr_authenticated = false →
      ¬(containsSub (pyStrip (pyLower tr)) "hr login".toList = true ∧
        containsSub (pyStrip (pyLower tr)) HR_PASSWORD = true) →
        (generate_ai_response st db tr ai now newId).1.is_hr_authenticated = false) ∧
    (∀ (st : AssistantState) (db : DB) (tr ai : Str) (now newId : Nat),
      containsSub (pyStrip (pyLower tr)) "hr login".toList = true →
      containsSub (pyStrip (pyLower tr)) HR_PASSWORD = false →
        generate_ai_response st db tr ai now newId
          = (st, saveInteraction db st.employee_id tr .hrPasswordPrompt now, none)) ∧
    (∀ (st : AssistantState) (db : DB) (tr ai : Str) (now newId : Nat),
      st.is_hr_authenticated = true →
      containsSub (pyStrip (pyLower tr)) "hr login".toList = false →
      containsSub (pyStrip (pyLower tr)) "view interactions".toList = false →
      containsSub (pyStrip (pyLower tr)) "update course".toList = false →
      containsSub (pyStrip (pyLower tr)) "status report".toList = false →
      containsSub (pyStrip (pyLower tr)) "logout".toList = true →
        (generate_ai_response st db tr ai now newId).1.is_hr_authenticated = false ∧
        (∀ (db' : DB) (tr' ai' : Str) (now' newId' : Nat),
          (generate_ai_response (generate_ai_response st db tr ai now newId).1 db'
              tr' ai' now' newId').2.2 = none)) ∧
    (∀ (st : AssistantState) (db : DB) (turns : List TurnIn),
      st.is_hr_authenticated = false →
      (∀ u ∈ turns,
        ¬(containsSub (pyStrip (pyLower u.transcript)) "hr login".toList = true ∧
          containsSub (pyStrip (pyLower u.transcript)) HR_PASSWORD = true)) →
        (∀ p ∈ (runTurns st db turns).2.2, p = none) ∧
        (runTurns st db turns).1.is_hr_authenticated = false) := by
  refine ⟨gen_priv_none, gen_auth_stays, gen_wrong_secret, ?_, runTurns_no_login⟩
  intro st db tr ai now newId hauth hnl hv hu hs hl
  have hflag : (generate_ai_response st db tr ai now newId).1.is_hr_authenticated = false := by
    rw [gen_logout st db tr ai now newId hauth hnl hv hu hs hl]
  exact ⟨hflag, fun db' tr' ai' now' newId' =>
    gen_priv_none _ db' tr' ai' now' newId' hflag⟩

/-- Witness for `hr_privilege_gating`: a wrong secret re-prompts with no state
change, and a logout turn of an authenticated state drops the flag. -/
theorem hr_privilege_gating_witness :
    generate_ai_response ⟨1, "bob".toList, none, none, none, none, false, "HR_Admin".toList⟩
        ⟨[], [], [], []⟩ "hr login with password123".toList [] 0 1
      = (⟨1, "bob".toList, none, none, none, none, false, "HR_Admin".toList⟩,
         saveInteraction ⟨[], [], [], []⟩ 1 "hr login with password123".toList
           .hrPasswordPrompt 0, none) ∧
    (generate_ai_response ⟨1, "bob".toList, none, none, none, none, true, "bob".toList⟩
        ⟨[], [], [], []⟩ "logout".toList [] 0 1).1.is_hr_authenticated = false :=
  ⟨hr_privilege_gating.2.2.1 ⟨1, "bob".toList, none, none, none, none, false, "HR_Admin".toList⟩
     ⟨[], [], [], []⟩ "hr login with password123".toList [] 0 1 (by decide) (by decide),
   (hr_privilege_gating.2.2.2.1 ⟨1, "bob".toList, none, none, none, none, true, "bob".toList⟩
     ⟨[], [], [], []⟩ "logout".toList [] 0 1 (by decide) (by decide) (by decide) (by decide)
     (by decide) (by decide)).1⟩

/-- `update_course_details` appends an audit row exactly when it reports a
successful update. -/
theorem update_audit_iff_success (courses : List Course) (audit : List HRCmd)
    (nm fld v ex : Str) (courses1 : List Course) (audit1 : List HRCmd) (m : CourseUpdMsg)
    (h : update_course_details courses audit nm fld v ex = some (courses1, audit1, m)) :
    ((∃ val, audit1 = audit ++ [.updatedCourse fld nm val ex]) ∧ m = .updated fld nm) ∨
    (audit1 = audit ∧ m ≠ .updated fld nm) := by
  unfold update_course_details at h
  dsimp only at h
  repeat' split at h
  all_goals
    first
      | exact Option.noConfusion h
      | (simp only [Option.some.injEq, Prod.mk.injEq] at h
         obtain ⟨h1, h2, h3⟩ := h
         first
           | exact Or.inl ⟨⟨_, h2.symm⟩, h3.symm⟩
           | exact Or.inr ⟨h2.symm, by rw [← h3]; intro hc; exact CourseUpdMsg.noConfusion hc⟩)

/-- C9 (amended): on the authenticated command surface, viewing interactions
and generating a status report always append an `hr_commands` audit row;
updating a course hands the audit list to `update_course_details`, which
appends a row exactly when the update succeeds (a validation failure or a
missing course appends none — diverging from the spec's
"regardless of outcome"); logging out, and a malformed update command, append
none. -/
theorem hr_audit_trail :
    (∀ (st : AssistantState) (db : DB) (transcript t : Str) (now : Nat) (o : StepOut),
      hr_command_step st db transcript t now = some o →
        (∀ ident, o.2.2 = some (.viewInteractions ident) →
          o.2.1.hr_commands = db.hr_commands ++ [.viewedInteractions ident st.hr_user]) ∧
        (o.2.2 = some .statusReport →
          o.2.1.hr_commands = db.hr_commands ++ [.statusReportDone st.hr_user]) ∧
        (o.2.2 = some .logoutCmd → o.2.1.hr_commands = db.hr_commands) ∧
        (o.2.2 = none → o.2.1.hr_commands = db.hr_commands) ∧
        (∀ nm fld v, o.2.2 = some (.updateCourse nm fld v) →
          ∀ (courses1 : List Course) (audit1 : List HRCmd) (m : CourseUpdMsg),
            update_course_details db.courses db.hr_commands nm fld v st.hr_user
              = some (courses1, audit1, m) →
            o.2.1.hr_commands = audit1)) ∧
    (∀ (courses : List Course) (audit : List HRCmd) (nm fld v ex : Str)
       (courses1 : List Course) (audit1 : List HRCmd) (m : CourseUpdMsg),
      update_course_details courses audit nm fld v ex = some (courses1, audit1, m) →
        ((∃ val, audit1 = audit ++ [.updatedCourse fld nm val ex]) ∧ m = .updated fld nm) ∨
        (audit1 = audit ∧ m ≠ .updated fld nm)) := by
  refine ⟨?_, update_audit_iff_success⟩
  intro st db transcript t now o h
  by_cases hv : containsSub t "view interactions".toList = true
  · unfold hr_command_step at h
    rw [if_pos hv] at h
    injection h with h2
    subst h2
    refine ⟨?_, by intro hc; exact absurd hc (by simp), by intro hc; exact absurd hc (by simp),
      by intro hc; exact absurd hc (by simp), by intro nm fld v hc; exact absurd hc (by simp)⟩
    intro ident hid
    simp only [Option.some.injEq, PrivAction.viewInteractions.injEq] at hid
    subst hid
    rfl
  · by_cases hu : containsSub t "update course".toList = true
    · unfold hr_command_step at h
      rw [if_neg hv, if_pos hu] at h
      cases hsu : searchUpdate t with
      | some triple =>
        obtain ⟨nm, fld, v⟩ := triple
        rw [hsu] at h
        dsimp only at h
        cases hupd : update_course_details db.courses db.hr_commands nm fld v st.hr_user with
        | some trip2 =>
          obtain ⟨courses1, audit1, m⟩ := trip2
          rw [hupd] at h
          injection h with h2
          subst h2
          refine ⟨by intro i hc; exact absurd hc (by simp),
            by intro hc; exact absurd hc (by simp), by intro hc; exact absurd hc (by simp),
            by intro hc; exact absurd hc (by simp), ?_⟩
          intro nm' fld' v' hpr courses1' audit1' m' hupd'
          simp only [Option.some.injEq, PrivAction.updateCourse.injEq] at hpr
          obtain ⟨h5, h6, h7⟩ := hpr
          subst h5; subst h6; subst h7
          rw [hupd] at hupd'
          simp only [Option.some.injEq, Prod.mk.injEq] at hupd'
          simp only [saveInteraction]
          exact hupd'.2.1
        | none =>
          rw [hupd] at h
          injection h with h2
          subst h2
          refine ⟨by intro i hc; exact absurd hc (by simp),
            by intro hc; exact absurd hc (by simp), by intro hc; exact absurd hc (by simp),
            by intro hc; exact absurd hc (by simp), ?_⟩
          intro nm' fld' v' hpr courses1' audit1' m' hupd'
          simp only [Option.some.injEq, PrivAction.updateCourse.injEq] at hpr
          obtain ⟨h5, h6, h7⟩ := hpr
          subst h5; subst h6; subst h7
          rw [hupd] at hupd'
          exact Option.noConfusion hupd'
      | none =>
        rw [hsu] at h
        dsimp only at h
        injection h with h2
        subst h2
        exact ⟨by intro i hc; exact absurd hc (by simp), by intro hc; exact absurd hc (by simp),
          by intro hc; exact absurd hc (by simp), by intro _; rfl,
          by intro nm fld v hc; exact absurd hc (by simp)⟩
    · by_cases hs : containsSub t "status report".toList = true
      · unfold hr_command_step at h
        rw [if_neg hv, if_neg hu, if_pos hs] at h
        injection h with h2
        subst h2
        exact ⟨by intro i hc; exact absurd hc (by simp), by intro _; rfl,
          by intro hc; exact absurd hc (by simp), by intro hc; exact absurd hc (by simp),
          by intro nm fld v hc; exact absurd hc (by simp)⟩
      · by_cases hl : containsSub t "logout".toList = true
        · unfold hr_command_step at h
          rw [if_neg hv, if_neg hu, if_neg hs, if_pos hl] at h
          injection h with h2
          subst h2
          exact ⟨by intro i hc; exact absurd hc (by simp), by intro hc; exact absurd hc (by simp),
            by intro _; rfl, by intro hc; exact absurd hc (by simp),
            by intro nm fld v hc; exact absurd hc (by simp)⟩
        · unfold hr_command_step at h
          rw [if_neg hv, if_neg hu, if_neg hs, if_neg hl] at h
          exact Option.noConfusion h

/-- Witness for `hr_audit_trail`: a status-report turn appends its audit row. -/
theorem hr_audit_trail_witness :
    ((hr_command_step ⟨1, "bob".toList, none, none, none, none, true, "bob".toList⟩
        ⟨[], [], [], []⟩ "status report".toList "status report".toList 4).getD
          (⟨1, [], none, none, none, none, false, []⟩, ⟨[], [], [], []⟩, none)).2.1.hr_commands
      = [] ++ [.statusReportDone "bob".toList] :=
  ((hr_audit_trail.1 ⟨1, "bob".toList, none, none, none, none, true, "bob".toList⟩
      ⟨[], [], [], []⟩ "status report".toList "status report".toList 4
      ((hr_command_step ⟨1, "bob".toList, none, none, none, none, true, "bob".toList⟩
        ⟨[], [], [], []⟩ "status report".toList "status report".toList 4).getD
          (⟨1, [], none, none, none, none, false, []⟩, ⟨[], [], [], []⟩, none))
      (by decide)).2.1 (by decide))

/-- C9, counterexample to the claim as stated: while authenticated, a price
update that fails validation (10000 is at most the 12000 floor) executes the
privileged update-course action yet appends no `hr_commands` row, and an
authenticated logout also appends none — refuting
"appends an HRCommand audit record, regardless of the action's outcome". -/
theorem hr_audit_counterexample :
    (generate_ai_response ⟨1, "bob".toList, none, none, none, none, true, "bob".toList⟩
        ⟨[], [], [], [⟨"Python Programming".toList, [], [], 15000, []⟩]⟩
        "update course python price to 10000".toList [] 5 1).2.2
      = some (.updateCourse "python".toList "price".toList "10000".toList) ∧
    (generate_ai_response ⟨1, "bob".toList, none, none, none, none, true, "bob".toList⟩
        ⟨[], [], [], [⟨"Python Programming".toList, [], [], 15000, []⟩]⟩
        "update course python price to 10000".toList [] 5 1).2.1.hr_commands = [] ∧
    (generate_ai_response ⟨1, "bob".toList, none, none, none, none, true, "bob".toList⟩
        ⟨[], [], [], [⟨"Python Programming".toList, [], [], 15000, []⟩]⟩
        "update course python price to 10000".toList [] 5 1).2.1.interactions.map
          (fun i => i.ai_response) = [.courseUpdate .priceTooLow] ∧
    (generate_ai_response ⟨1, "bob".toList, none, none, none, none, true, "bob".toList⟩
        ⟨[], [], [], []⟩ "logout".toList [] 6 1).2.2 = some .logoutCmd ∧
    (generate_ai_response ⟨1, "bob".toList, none, none, none, none, true, "bob".toList⟩
        ⟨[], [], [], []⟩ "logout".toList [] 6 1).2.1.hr_commands = [] := by
  decide
